import Mathlib

/-!
Verification of the predefined Matrix push rules
(`src/ruma-common/src/push/predefined.rs`) against the repository's
specification of the push-rule data model and evaluation semantics.

The predefined-rule constructors (`Ruleset.server_default` and the
`ConditionalPushRule`/`PatternedPushRule` constructors) are translated
directly from the source file.  The surrounding data model
(`Ruleset`, `Action`, `PushCondition`, ...) and the evaluation pipeline
(condition evaluator, action resolver, top-level rule evaluator) are
declared in the repository outside the provided sources, so they are
modelled from the specification (sections 3, 4.1, 4.2 and 4.3); each such
definition carries a doc comment saying so.
-/

namespace Push

/-- Modelled from the spec: a Matrix user id (the `ruma_identifiers::UserId`
type is an external collaborator).  A user id has a local part and a server
name; its string form is `@localpart:server`. -/
structure UserId where
  localpart : String
  serverName : String
deriving DecidableEq, Repr

/-- Modelled from the spec: the string form of a user id, as produced by
`user_id.to_string()` in the source. -/
def UserId.toString (u : UserId) : String :=
  "@" ++ u.localpart ++ ":" ++ u.serverName

/-- The `Tweak` variant: `Sound(string)` or `Highlight(bool)`
(spec section 3, "Action"). -/
inductive Tweak where
  | Sound : String → Tweak
  | Highlight : Bool → Tweak
deriving DecidableEq, Repr

/-- The `Action` variant: `Notify`, `DontNotify`, `Coalesce` (deprecated),
or `SetTweak(Tweak)` (spec section 3, "Action"). -/
inductive Action where
  | Notify
  | DontNotify
  | Coalesce
  | SetTweak : Tweak → Action
deriving DecidableEq, Repr

open Action

/-- The comparison operator of a `RoomMemberCountIs` bound; an unprefixed
number means equality (spec section 3). -/
inductive MemberCountCmp where
  | Eq
  | Lt
  | Gt
  | Le
  | Ge
deriving DecidableEq, Repr

/-- The `RoomMemberCountIs` comparison: an operator and an integer bound
(spec section 3, `RoomMemberCount`). -/
structure RoomMemberCountIs where
  cmp : MemberCountCmp
  count : Nat
deriving DecidableEq, Repr

/-- `RoomMemberCountIs::from(n)` on a bare unsigned integer: equality with
`n` (the unprefixed-number case of spec section 3). -/
def RoomMemberCountIs.fromCount (n : Nat) : RoomMemberCountIs :=
  { cmp := MemberCountCmp.Eq, count := n }

/-- The `PushCondition` tagged variant (spec section 3). -/
inductive PushCondition where
  | EventMatch (key : String) (pattern : String)
  | ContainsDisplayName
  | RoomMemberCount (is : RoomMemberCountIs)
  | SenderNotificationPermission (key : String)
deriving DecidableEq, Repr

open PushCondition

/-- `ConditionalPushRule`: rule id, server-default marker, enablement, an
ordered conditions sequence and an ordered actions sequence
(spec section 3; field set as used by the source constructors). -/
structure ConditionalPushRule where
  actions : List Action
  default : Bool
  enabled : Bool
  rule_id : String
  conditions : List PushCondition
deriving DecidableEq, Repr

/-- `PatternedPushRule`: rule id, server-default marker, enablement, a glob
pattern and an ordered actions sequence (spec section 3; field set as used
by the source constructors). -/
structure PatternedPushRule where
  actions : List Action
  default : Bool
  enabled : Bool
  rule_id : String
  pattern : String
deriving DecidableEq, Repr

/-- Modelled from the spec: `SimpleRule` for the room and sender kinds
(spec section 3) — rule id, default marker, enablement and actions; it
always matches when reached. -/
structure SimplePushRule where
  actions : List Action
  default : Bool
  enabled : Bool
  rule_id : String
deriving DecidableEq, Repr

/-- Modelled from the spec: the `Ruleset` record owning the five ordered
kind sequences (spec section 3).  The source's `..Default::default()`
completes `server_default` with empty `room` and `sender` lists. -/
structure Ruleset where
  content : List PatternedPushRule
  override_ : List ConditionalPushRule
  room : List SimplePushRule
  sender : List SimplePushRule
  underride : List ConditionalPushRule
deriving DecidableEq, Repr

/-- Modelled from the spec: the derived `Default` of `Ruleset` — every kind
sequence empty. -/
def Ruleset.emptyDefault : Ruleset :=
  { content := [], override_ := [], room := [], sender := [], underride := [] }

/-- `ConditionalPushRule::master()` (predefined.rs lines 48-56). -/
def ConditionalPushRule.master : ConditionalPushRule :=
  { actions := [DontNotify]
    default := true
    enabled := false
    rule_id := ".m.rule.master"
    conditions := [] }

/-- `ConditionalPushRule::suppress_notices()` (predefined.rs lines 59-70). -/
def ConditionalPushRule.suppress_notices : ConditionalPushRule :=
  { actions := [DontNotify]
    default := true
    enabled := true
    rule_id := ".m.rule.suppress_notices"
    conditions := [EventMatch "content.msgtype" "m.notice"] }

/-- `ConditionalPushRule::invite_for_me(user_id)` (predefined.rs lines 73-89). -/
def ConditionalPushRule.invite_for_me (user_id : UserId) : ConditionalPushRule :=
  { actions := [Notify, SetTweak (Tweak.Sound "default"), SetTweak (Tweak.Highlight false)]
    default := true
    enabled := true
    rule_id := ".m.rule.invite_for_me"
    conditions :=
      [EventMatch "type" "m.room.member",
       EventMatch "content.membership" "invite",
       EventMatch "state_key" user_id.toString] }

/-- `ConditionalPushRule::member_event()` (predefined.rs lines 92-100). -/
def ConditionalPushRule.member_event : ConditionalPushRule :=
  { actions := [DontNotify]
    default := true
    enabled := true
    rule_id := ".m.rule.member_event"
    conditions := [EventMatch "type" "m.room.member"] }

/-- `ConditionalPushRule::contains_display_name()` (predefined.rs lines 104-116). -/
def ConditionalPushRule.contains_display_name : ConditionalPushRule :=
  { actions := [Notify, SetTweak (Tweak.Sound "default"), SetTweak (Tweak.Highlight true)]
    default := true
    enabled := true
    rule_id := ".m.rule.contains_display_name"
    conditions := [ContainsDisplayName] }

/-- `ConditionalPushRule::tombstone()` (predefined.rs lines 121-132). -/
def ConditionalPushRule.tombstone : ConditionalPushRule :=
  { actions := [Notify, SetTweak (Tweak.Highlight true)]
    default := true
    enabled := false
    rule_id := ".m.rule.tombstone"
    conditions := [EventMatch "type" "m.room.tombstone", EventMatch "state_key" ""] }

/-- `ConditionalPushRule::roomnotif()` (predefined.rs lines 136-147). -/
def ConditionalPushRule.roomnotif : ConditionalPushRule :=
  { actions := [Notify, SetTweak (Tweak.Highlight true)]
    default := true
    enabled := true
    rule_id := ".m.rule.roomnotif"
    conditions :=
      [EventMatch "content.body" "@room",
       SenderNotificationPermission "room"] }

/-- `PatternedPushRule::contains_user_name(user_id)` (predefined.rs lines 154-166). -/
def PatternedPushRule.contains_user_name (user_id : UserId) : PatternedPushRule :=
  { rule_id := ".m.rules.contains_user_name"
    enabled := true
    default := true
    pattern := user_id.localpart
    actions := [Notify, SetTweak (Tweak.Sound "default"), SetTweak (Tweak.Highlight true)] }

/-- `ConditionalPushRule::call()` (predefined.rs lines 172-184). -/
def ConditionalPushRule.call : ConditionalPushRule :=
  { rule_id := ".m.rules.call"
    default := true
    enabled := true
    conditions := [EventMatch "type" "m.call.invite"]
    actions := [Notify, SetTweak (Tweak.Sound "ring"), SetTweak (Tweak.Highlight false)] }

/-- `ConditionalPushRule::encrypted_room_one_to_one()` (predefined.rs lines 192-207). -/
def ConditionalPushRule.encrypted_room_one_to_one : ConditionalPushRule :=
  { rule_id := ".m.rules.encrypted_room_one_to_one"
    default := true
    enabled := true
    conditions :=
      [RoomMemberCount (RoomMemberCountIs.fromCount 2),
       EventMatch "type" "m.room.encrypted"]
    actions := [Notify, SetTweak (Tweak.Sound "default"), SetTweak (Tweak.Highlight false)] }

/-- `ConditionalPushRule::room_one_to_one()` (predefined.rs lines 210-225). -/
def ConditionalPushRule.room_one_to_one : ConditionalPushRule :=
  { rule_id := ".m.rules.room_one_to_one"
    default := true
    enabled := true
    conditions :=
      [RoomMemberCount (RoomMemberCountIs.fromCount 2),
       EventMatch "type" "m.room.message"]
    actions := [Notify, SetTweak (Tweak.Sound "default"), SetTweak (Tweak.Highlight false)] }

/-- `ConditionalPushRule::message()` (predefined.rs lines 228-236). -/
def ConditionalPushRule.message : ConditionalPushRule :=
  { rule_id := ".m.rules.message"
    default := true
    enabled := true
    conditions := [EventMatch "type" "m.room.message"]
    actions := [Notify, SetTweak (Tweak.Highlight false)] }

/-- `ConditionalPushRule::encrypted()` (predefined.rs lines 243-251). -/
def ConditionalPushRule.encrypted : ConditionalPushRule :=
  { rule_id := ".m.rules.encrypted"
    default := true
    enabled := true
    conditions := [EventMatch "type" "m.room.encrypted"]
    actions := [Notify, SetTweak (Tweak.Highlight false)] }

/-- `Ruleset::server_default(user_id)` (predefined.rs lines 20-41): the
protocol-mandated baseline ruleset for a user. -/
def Ruleset.server_default (user_id : UserId) : Ruleset :=
  { Ruleset.emptyDefault with
    content := [PatternedPushRule.contains_user_name user_id]
    override_ :=
      [ConditionalPushRule.master,
       ConditionalPushRule.suppress_notices,
       ConditionalPushRule.invite_for_me user_id,
       ConditionalPushRule.member_event,
       ConditionalPushRule.contains_display_name,
       ConditionalPushRule.tombstone,
       ConditionalPushRule.roomnotif]
    underride :=
      [ConditionalPushRule.call,
       ConditionalPushRule.encrypted_room_one_to_one,
       ConditionalPushRule.room_one_to_one,
       ConditionalPushRule.message,
       ConditionalPushRule.encrypted] }

/-- Modelled from the spec: the suffixes of a character list, longest first
(helper for the `*` wildcard of glob matching, spec section 4.1). -/
def suffixes : List Char → List (List Char)
  | [] => [[]]
  | c :: cs => (c :: cs) :: suffixes cs

/-- Modelled from the spec: glob matching over the full stringified field
value (spec section 4.1): `*` matches any run of characters including the
empty one, `?` matches exactly one character, any other pattern character
matches itself. -/
def globMatch : List Char → List Char → Bool
  | [], s => s.isEmpty
  | p :: ps, s =>
    if p = '*' then (suffixes s).any (fun t => globMatch ps t)
    else
      match s with
      | [] => false
      | c :: cs => (p = '?' || p = c) && globMatch ps cs

/-- Modelled from the spec: glob matching on strings. -/
def globMatchString (pattern s : String) : Bool :=
  globMatch pattern.toList s.toList

/-- Modelled from the spec: a character that is part of a word, for the
word-bounded matching of patterned rules and display names. -/
def isWordChar (c : Char) : Bool :=
  c.isAlphanum || c = '_'

/-- Modelled from the spec: split a character list into its words (maximal
runs of word characters); `acc` holds the reversed current word. -/
def wordsAux : List Char → List Char → List (List Char)
  | [], acc => if acc.isEmpty then [] else [acc.reverse]
  | c :: cs, acc =>
    if isWordChar c then wordsAux cs (c :: acc)
    else if acc.isEmpty then wordsAux cs [] else acc.reverse :: wordsAux cs []

/-- Modelled from the spec: the words of a string. -/
def words (s : String) : List (List Char) :=
  wordsAux s.toList []

/-- Modelled from the spec: case-insensitive whole-word containment for
`ContainsDisplayName` (spec sections 3 and 4.1): some position of the
lowercased body carries the lowercased name, bounded on both sides by a
string end or a non-word character; the empty name never matches. -/
def containsWordCI (body name : String) : Bool :=
  let b := (body.toList).map Char.toLower
  let s := (name.toList).map Char.toLower
  !s.isEmpty && (List.range (b.length + 1)).any (fun i =>
    decide ((b.drop i).take s.length = s)
    && (i = 0 || !isWordChar (b.getD (i - 1) ' '))
    && (decide (i + s.length = b.length) || !isWordChar (b.getD (i + s.length) ' ')))

/-- Modelled from the spec: the incoming event as the condition evaluator
consumes it (spec sections 4.1 and 6): a dotted-path lookup returning the
stringified field value, or `none` when any path segment is absent. -/
structure Event where
  lookup : String → Option String

/-- Modelled from the spec: the room context provider (spec section 6):
the current member count when available, and whether the event sender
holds the power level required for notifications tagged with a key
(`false` when power-level data is unavailable — fail closed,
spec section 4.1). -/
structure RoomContext where
  memberCount : Option Nat
  senderHasPower : String → Bool

/-- Modelled from the spec: the user context: the requesting user's current
room display name when available (spec section 4.1). -/
structure UserContext where
  displayName : Option String

/-- Modelled from the spec: whether a member count satisfies a
`RoomMemberCountIs` comparison (spec section 3). -/
def RoomMemberCountIs.satisfied (i : RoomMemberCountIs) (n : Nat) : Bool :=
  match i.cmp with
  | MemberCountCmp.Eq => n = i.count
  | MemberCountCmp.Lt => n < i.count
  | MemberCountCmp.Gt => n > i.count
  | MemberCountCmp.Le => n ≤ i.count
  | MemberCountCmp.Ge => n ≥ i.count

/-- Modelled from the spec: the condition evaluator (spec section 4.1).
Never fails: a missing key, absent room context or absent display name
evaluates to `false` (fail closed). -/
def condMatches (ev : Event) (rctx : RoomContext) (uctx : UserContext) :
    PushCondition → Bool
  | EventMatch key pat =>
    match ev.lookup key with
    | none => false
    | some v => globMatchString pat v
  | ContainsDisplayName =>
    match uctx.displayName, ev.lookup "content.body" with
    | some name, some body => containsWordCI body name
    | _, _ => false
  | RoomMemberCount i =>
    match rctx.memberCount with
    | none => false
    | some n => i.satisfied n
  | SenderNotificationPermission key => rctx.senderHasPower key

/-- Modelled from the spec: an enabled conditional rule applies when every
condition matches — logical AND, and an empty conditions sequence always
matches (spec sections 3 and 4.3); a disabled rule is skipped. -/
def conditionalApplies (ev : Event) (rctx : RoomContext) (uctx : UserContext)
    (r : ConditionalPushRule) : Bool :=
  r.enabled && r.conditions.all (condMatches ev rctx uctx)

/-- Modelled from the spec: a patterned rule matches when some word of the
event body glob-matches the pattern (word-bounded glob, spec section 3);
an absent body matches nothing (fail closed). -/
def patternedApplies (ev : Event) (r : PatternedPushRule) : Bool :=
  r.enabled &&
    match ev.lookup "content.body" with
    | none => false
    | some body => (words body).any (fun w => globMatch r.pattern.toList w)

/-- Modelled from the spec: a simple rule always matches when reached and
enabled (spec section 3). -/
def simpleApplies (r : SimplePushRule) : Bool :=
  r.enabled

/-- Modelled from the spec: the decision of the action resolver
(spec section 4.2): the notify flag and the tweak mapping, whose only
names are `sound` and `highlight`. -/
structure Decision where
  notify : Bool
  sound : Option String
  highlight : Option Bool
deriving DecidableEq, Repr

/-- Modelled from the spec: the action resolver (spec section 4.2): one
scan of the action sequence; `Notify`/`Coalesce` set the flag, `DontNotify`
clears it (last one wins), later tweaks of the same name overwrite earlier
ones. -/
def resolve (actions : List Action) : Decision :=
  actions.foldl
    (fun d a =>
      match a with
      | Notify => { d with notify := true }
      | Coalesce => { d with notify := true }
      | DontNotify => { d with notify := false }
      | SetTweak (Tweak.Sound s) => { d with sound := some s }
      | SetTweak (Tweak.Highlight b) => { d with highlight := some b })
    { notify := false, sound := none, highlight := none }

/-- Modelled from the spec: the top-level rule evaluator (spec section
4.3): walk the kinds in the order override, content, room, sender,
underride, inside each kind in insertion order, and return the resolved
actions of the first enabled matching rule; `none` when no rule matches. -/
def evaluate (rs : Ruleset) (ev : Event) (rctx : RoomContext)
    (uctx : UserContext) : Option Decision :=
  match rs.override_.find? (conditionalApplies ev rctx uctx) with
  | some r => some (resolve r.actions)
  | none =>
    match rs.content.find? (patternedApplies ev) with
    | some r => some (resolve r.actions)
    | none =>
      match rs.room.find? simpleApplies with
      | some r => some (resolve r.actions)
      | none =>
        match rs.sender.find? simpleApplies with
        | some r => some (resolve r.actions)
        | none =>
          match rs.underride.find? (conditionalApplies ev rctx uctx) with
          | some r => some (resolve r.actions)
          | none => none

/-- A test user id with local part `alice`. -/
def aliceId : UserId :=
  { localpart := "alice", serverName := "example.org" }

/-- A bare chat-message event: only its `type` field is present. -/
def messageEvent : Event :=
  { lookup := fun k => if k = "type" then some "m.room.message" else none }

/-- An invite event for `aliceId`: an `m.room.member` event with membership
`invite` and the user's full id as its state key. -/
def inviteEvent : Event :=
  { lookup := fun k =>
      if k = "type" then some "m.room.member"
      else if k = "content.membership" then some "invite"
      else if k = "state_key" then some "@alice:example.org"
      else none }

/-- A tombstone state event: type `m.room.tombstone`, empty state key. -/
def tombstoneEvent : Event :=
  { lookup := fun k =>
      if k = "type" then some "m.room.tombstone"
      else if k = "state_key" then some ""
      else none }

/-- A room context with exactly two members and no power-level data. -/
def twoMemberRoom : RoomContext :=
  { memberCount := some 2, senderHasPower := fun _ => false }

/-- A user context with no display name available. -/
def noDisplayName : UserContext :=
  { displayName := none }

/-- Re-enable the tombstone rule of a ruleset in place, leaving every other
rule untouched. -/
def enableTombstone (rs : Ruleset) : Ruleset :=
  { rs with
    override_ := rs.override_.map fun r =>
      if r.rule_id = ".m.rule.tombstone" then { r with enabled := true } else r }

/-- Whether an action is one of the two decision markers. -/
def isDecisionAction : Action → Bool
  | Notify => true
  | DontNotify => true
  | _ => false

/-- Whether an action sets a tweak. -/
def isSetTweakAction : Action → Bool
  | SetTweak _ => true
  | _ => false

/-- An action list is decisive when exactly one of its actions is `Notify`
or `DontNotify`, and a list carrying `DontNotify` carries no tweak. -/
def decisiveActions (l : List Action) : Bool :=
  (l.countP isDecisionAction == 1) &&
    (!(l.contains DontNotify) || l.all fun a => !(isSetTweakAction a))

/-- C1: for every user id, `server_default` produces exactly the content
list `[contains_user_name user_id]`, the override list `[master,
suppress_notices, invite_for_me user_id, member_event,
contains_display_name, tombstone, roomnotif]` in that order, the underride
list `[call, encrypted_room_one_to_one, room_one_to_one, message,
encrypted]` in that order, and empty room and sender lists. -/
theorem server_default_exact_content (u : UserId) :
    (Ruleset.server_default u).content = [PatternedPushRule.contains_user_name u] ∧
    (Ruleset.server_default u).override_ =
      [ConditionalPushRule.master,
       ConditionalPushRule.suppress_notices,
       ConditionalPushRule.invite_for_me u,
       ConditionalPushRule.member_event,
       ConditionalPushRule.contains_display_name,
       ConditionalPushRule.tombstone,
       ConditionalPushRule.roomnotif] ∧
    (Ruleset.server_default u).underride =
      [ConditionalPushRule.call,
       ConditionalPushRule.encrypted_room_one_to_one,
       ConditionalPushRule.room_one_to_one,
       ConditionalPushRule.message,
       ConditionalPushRule.encrypted] ∧
    (Ruleset.server_default u).room = [] ∧
    (Ruleset.server_default u).sender = [] :=
  ⟨rfl, rfl, rfl, rfl, rfl⟩

/-- C2: in the default underride list, `room_one_to_one` sits strictly
before `message`; `room_one_to_one` notifies with sound `default` and
highlight `false` while `message` has no sound tweak; and on a plain
`m.room.message` event in a two-member room the evaluator resolves to
`room_one_to_one`'s actions, not `message`'s. -/
theorem room_one_to_one_shadows_message (u : UserId) :
    (Ruleset.server_default u).underride.indexOf ConditionalPushRule.room_one_to_one <
      (Ruleset.server_default u).underride.indexOf ConditionalPushRule.message ∧
    ConditionalPushRule.room_one_to_one.actions =
      [Notify, SetTweak (Tweak.Sound "default"), SetTweak (Tweak.Highlight false)] ∧
    ConditionalPushRule.message.actions = [Notify, SetTweak (Tweak.Highlight false)] ∧
    evaluate (Ruleset.server_default u) messageEvent twoMemberRoom noDisplayName =
      some (resolve ConditionalPushRule.room_one_to_one.actions) ∧
    resolve ConditionalPushRule.room_one_to_one.actions =
      { notify := true, sound := some "default", highlight := some false } ∧
    resolve ConditionalPushRule.message.actions =
      { notify := true, sound := none, highlight := some false } := by
  have h1 : (Ruleset.server_default u).underride.indexOf
      ConditionalPushRule.room_one_to_one = 2 := rfl
  have h2 : (Ruleset.server_default u).underride.indexOf
      ConditionalPushRule.message = 3 := rfl
  exact ⟨by omega, rfl, rfl, rfl, rfl, rfl⟩

/-- C3: the master rule is built with no conditions, disabled, default,
actions `[DontNotify]`; as shipped it never applies, while the re-enabled
copy applies to every event and its actions resolve to a silent
decision. -/
theorem master_rule_semantics (ev : Event) (rctx : RoomContext) (uctx : UserContext) :
    ConditionalPushRule.master.conditions = [] ∧
    ConditionalPushRule.master.enabled = false ∧
    ConditionalPushRule.master.default = true ∧
    ConditionalPushRule.master.actions = [DontNotify] ∧
    conditionalApplies ev rctx uctx ConditionalPushRule.master = false ∧
    conditionalApplies ev rctx uctx { ConditionalPushRule.master with enabled := true } = true ∧
    resolve ConditionalPushRule.master.actions =
      { notify := false, sound := none, highlight := none } :=
  ⟨rfl, rfl, rfl, rfl, rfl, rfl, rfl⟩

/-- C4: for every user id, `invite_for_me` is an enabled default rule of
the override list whose conditions are exactly the three `EventMatch`
conditions on type, membership and the user's state key, and whose actions
resolve to a notify decision with sound `default` and highlight `false`. -/
theorem invite_for_me_shape (u : UserId) :
    (ConditionalPushRule.invite_for_me u).enabled = true ∧
    (ConditionalPushRule.invite_for_me u).default = true ∧
    ConditionalPushRule.invite_for_me u ∈ (Ruleset.server_default u).override_ ∧
    (ConditionalPushRule.invite_for_me u).conditions =
      [EventMatch "type" "m.room.member",
       EventMatch "content.membership" "invite",
       EventMatch "state_key" u.toString] ∧
    resolve (ConditionalPushRule.invite_for_me u).actions =
      { notify := true, sound := some "default", highlight := some false } :=
  ⟨rfl, rfl, List.Mem.tail _ (List.Mem.tail _ (List.Mem.head _)), rfl, rfl⟩

/-- C5: `invite_for_me` sits strictly before `member_event` in the default
override list, `member_event`'s single condition is the first condition of
`invite_for_me`, and every event that matches `invite_for_me` also matches
`member_event` — only the insertion order lets invites notify. -/
theorem invite_for_me_precedes_member_event (u : UserId) (ev : Event)
    (rctx : RoomContext) (uctx : UserContext)
    (h : conditionalApplies ev rctx uctx (ConditionalPushRule.invite_for_me u) = true) :
    (∃ i j : Nat, i < j ∧
      (Ruleset.server_default u).override_[i]? = some (ConditionalPushRule.invite_for_me u) ∧
      (Ruleset.server_default u).override_[j]? = some ConditionalPushRule.member_event) ∧
    ConditionalPushRule.member_event.conditions = [EventMatch "type" "m.room.member"] ∧
    (ConditionalPushRule.invite_for_me u).conditions.head? =
      some (EventMatch "type" "m.room.member") ∧
    conditionalApplies ev rctx uctx ConditionalPushRule.member_event = true := by
  refine ⟨⟨2, 3, by omega, rfl, rfl⟩, rfl, rfl, ?_⟩
  simp only [conditionalApplies, ConditionalPushRule.invite_for_me, List.all_cons,
    List.all_nil, Bool.and_eq_true, Bool.and_true, Bool.true_and] at h
  simp only [conditionalApplies, ConditionalPushRule.member_event, List.all_cons,
    List.all_nil, Bool.and_true, Bool.true_and]
  exact h.1

/-- C5 witness: for the concrete user `aliceId` and the concrete invite
event, `invite_for_me` matches, and so does `member_event`. -/
theorem invite_for_me_precedes_member_event_witness :
    conditionalApplies inviteEvent twoMemberRoom noDisplayName
      ConditionalPushRule.member_event = true :=
  (invite_for_me_precedes_member_event aliceId inviteEvent twoMemberRoom
    noDisplayName rfl).2.2.2

/-- C6: for every user id, `contains_user_name` is the content-kind
patterned rule whose pattern is exactly the user's local part — never the
full id — enabled, default, with actions notify, sound `default`,
highlight `true`. -/
theorem contains_user_name_shape (u : UserId) :
    PatternedPushRule.contains_user_name u =
      { rule_id := ".m.rules.contains_user_name"
        enabled := true
        default := true
        pattern := u.localpart
        actions := [Notify, SetTweak (Tweak.Sound "default"),
                    SetTweak (Tweak.Highlight true)] } ∧
    PatternedPushRule.contains_user_name u ∈ (Ruleset.server_default u).content ∧
    (PatternedPushRule.contains_user_name u).pattern ≠ u.toString := by
  refine ⟨rfl, List.Mem.head _, ?_⟩
  intro h
  have hl := congrArg String.length h
  have h1 : ("@".length : Nat) = 1 := rfl
  have h2 : (":".length : Nat) = 1 := rfl
  simp only [PatternedPushRule.contains_user_name, UserId.toString,
    String.length_append, h1, h2] at hl
  omega

/-- C7: every rule of every kind list of `server_default` carries
`default = true`; no predefined rule is built with `default = false`. -/
theorem server_default_rules_are_default (u : UserId) :
    (∀ r ∈ (Ruleset.server_default u).override_, r.default = true) ∧
    (∀ r ∈ (Ruleset.server_default u).content, r.default = true) ∧
    (∀ r ∈ (Ruleset.server_default u).room, r.default = true) ∧
    (∀ r ∈ (Ruleset.server_default u).sender, r.default = true) ∧
    (∀ r ∈ (Ruleset.server_default u).underride, r.default = true) := by
  refine ⟨?_, ?_, ?_, ?_, ?_⟩ <;> intro r hr <;>
    simp only [Ruleset.server_default, Ruleset.emptyDefault, List.mem_cons,
      List.not_mem_nil, or_false] at hr
  · rcases hr with rfl | rfl | rfl | rfl | rfl | rfl | rfl <;> rfl
  · rcases hr with rfl
    rfl
  · rcases hr with rfl | rfl | rfl | rfl | rfl <;> rfl

/-- C8: within each kind list of `server_default`, the rule ids are
pairwise distinct. -/
theorem rule_ids_unique_within_kind (u : UserId) :
    ((Ruleset.server_default u).override_.map (fun r => r.rule_id)).Nodup ∧
    ((Ruleset.server_default u).content.map (fun r => r.rule_id)).Nodup ∧
    ((Ruleset.server_default u).room.map (fun r => r.rule_id)).Nodup ∧
    ((Ruleset.server_default u).sender.map (fun r => r.rule_id)).Nodup ∧
    ((Ruleset.server_default u).underride.map (fun r => r.rule_id)).Nodup := by
  have h1 : (Ruleset.server_default u).override_.map (fun r => r.rule_id) =
      [".m.rule.master", ".m.rule.suppress_notices", ".m.rule.invite_for_me",
       ".m.rule.member_event", ".m.rule.contains_display_name",
       ".m.rule.tombstone", ".m.rule.roomnotif"] := rfl
  have h2 : (Ruleset.server_default u).content.map (fun r => r.rule_id) =
      [".m.rules.contains_user_name"] := rfl
  have h3 : (Ruleset.server_default u).room.map (fun r => r.rule_id) = [] := rfl
  have h4 : (Ruleset.server_default u).sender.map (fun r => r.rule_id) = [] := rfl
  have h5 : (Ruleset.server_default u).underride.map (fun r => r.rule_id) =
      [".m.rules.call", ".m.rules.encrypted_room_one_to_one",
       ".m.rules.room_one_to_one", ".m.rules.message", ".m.rules.encrypted"] := rfl
  rw [h1, h2, h3, h4, h5]
  refine ⟨by decide, by decide, by decide, by decide, by decide⟩

/-- C9: the tombstone rule ships disabled; besides the master rule it is
the only disabled rule of `server_default`, so a tombstone event is not
notified by it — the evaluator yields no decision — until it is
re-enabled, after which the event resolves to tombstone's actions. -/
theorem tombstone_ships_disabled (u : UserId) :
    ConditionalPushRule.tombstone.enabled = false ∧
    ConditionalPushRule.master.enabled = false ∧
    ((Ruleset.server_default u).override_.all fun r =>
      r.enabled || r.rule_id == ".m.rule.master" || r.rule_id == ".m.rule.tombstone") = true ∧
    ((Ruleset.server_default u).content.all fun r => r.enabled) = true ∧
    ((Ruleset.server_default u).underride.all fun r => r.enabled) = true ∧
    evaluate (Ruleset.server_default u) tombstoneEvent twoMemberRoom noDisplayName = none ∧
    evaluate (enableTombstone (Ruleset.server_default u)) tombstoneEvent twoMemberRoom
      noDisplayName = some (resolve ConditionalPushRule.tombstone.actions) :=
  ⟨rfl, rfl, rfl, rfl, rfl, rfl, rfl⟩

/-- C10: every predefined rule's action list is decisive: exactly one of
`Notify` or `DontNotify` appears, and a list with `DontNotify` sets no
tweak. -/
theorem predefined_actions_decisive (u : UserId) :
    ((Ruleset.server_default u).override_.all fun r => decisiveActions r.actions) = true ∧
    ((Ruleset.server_default u).content.all fun r => decisiveActions r.actions) = true ∧
    ((Ruleset.server_default u).underride.all fun r => decisiveActions r.actions) = true :=
  ⟨rfl, rfl, rfl⟩

end Push
